import Mathlib
namespace PotholeReport

/-!
Verification of the pothole-report report-assembly pipeline.

This file gives a shallow embedding, in Lean 4, of the pure logic of the
`pothole_report` / `pothole_batcher` Python packages:

* `src/pothole_report/config.py`   — `load_config` (validation order, lenient
  secondary data);
* `src/pothole_report/cli.py`      — `_generate_report_text` (severity
  inference, phrase resolution, template expansion) and the earliest-image
  selection in `main`;
* `src/pothole_report/extract.py`  — `_to_float`, `_dms_to_decimal`, `extract`;
* `src/pothole_report/output.py`   — `build_report_record` (derived URLs);
* `src/pothole_batcher/geocode.py` — `reverse_geocode`.

Python strings are modelled as Lean `String`, Python floats as `ℚ`
(the coordinate arithmetic involved is exact at the precision the claims
speak about), Python dicts as association lists in insertion order, and
fallible operations as `Option` / `Except` values.  Definitions follow the
source line by line; each carries a comment pointing at the Python it embeds.
-/

/-! ### Python string primitives used by the source -/

/-- The characters matched by Python's `str.strip()` / regex `\s` on the
ASCII range (space, tab, newline, carriage return, vertical tab, form feed). -/
def isPySpace (c : Char) : Bool :=
  c = ' ' || c = '\t' || c = '\n' || c = '\x0d' || c = '\x0b' || c = '\x0c'

/-- Python `str.strip()`: drop leading and trailing whitespace. -/
def pyStrip (s : String) : String :=
  ⟨((s.data.dropWhile isPySpace).reverse.dropWhile isPySpace).reverse⟩

/-- Python `str.rstrip("/")` as used in `build_report_record`
(`output.py`, line 49): drop all trailing `'/'` characters. -/
def rstripSlash (s : String) : String :=
  ⟨((s.data.reverse.dropWhile (fun c => c = '/')).reverse)⟩

/-! ### `output.py` — `build_report_record` (claim C6) -/

/-- Python `round(x, 6)` (`output.py`, lines 50–51) on an exact coordinate,
returned in integer micro-degrees (the value times `10⁶`): nearest integer
to `q·10⁶`, ties to even, exactly Python's round-half-to-even.  Computed on
`q.num` / `q.den` with integer operations only. -/
def round6micro (q : ℚ) : ℤ :=
  let n : ℤ := q.num * 1000000
  let d : ℤ := (q.den : ℤ)
  let f : ℤ := n.fdiv d
  let r2 : ℤ := 2 * (n - f * d)
  if r2 < d then f
  else if d < r2 then f + 1
  else if f % 2 = 0 then f else f + 1

/-- Decimal digits of `n` (most significant first); `['0']` for zero. -/
def natDigits (n : ℕ) : List Char :=
  Nat.toDigits 10 n

/-- Python `str(x)` for the float `round(x, 6)`, given in micro-units:
sign, integer part, `'.'`, the six fractional digits with trailing zeros
removed but at least one digit kept (`str(2.0) = "2.0"`).  This is Python's
plain-decimal float repr for such values. -/
def fmtMicro (micro : ℤ) : String :=
  let sign : String := if micro < 0 then "-" else ""
  let m : ℕ := micro.natAbs
  let intPart : ℕ := m / 1000000
  let fracPart : ℕ := m % 1000000
  let fracDigits : List Char :=
    let raw := natDigits fracPart
    let padded := List.replicate (6 - raw.length) '0' ++ raw
    let trimmed := (padded.reverse.dropWhile (fun c => c = '0')).reverse
    if trimmed.isEmpty then ['0'] else trimmed
  sign ++ ⟨natDigits intPart⟩ ++ "." ++ ⟨fracDigits⟩

/-- The pair of URLs derived in `build_report_record` (`output.py`,
lines 49–53):

    base = report_url.rstrip("/")
    lat = round(extracted.lat, 6)
    lon = round(extracted.lon, 6)
    fth_url = f"{base}/around?lat={lat}&lon={lon}&zoom=4"
    gm_url = f"https://www.google.com/maps?q={lat},{lon}"
-/
def build_report_record_urls (report_url : String) (lat lon : ℚ) :
    String × String :=
  let base := rstripSlash report_url
  let latS := fmtMicro (round6micro lat)
  let lonS := fmtMicro (round6micro lon)
  let fth_url :=
    base ++ "/around?lat=" ++ latS ++ "&lon=" ++ lonS ++ "&zoom=4"
  let gm_url :=
    "https://www.google.com/maps?q=" ++ latS ++ "," ++ lonS
  (fth_url, gm_url)

/-! ### `extract.py` — EXIF GPS extraction (claims C7, C10) -/

/-- An EXIF numeric value as Pillow hands it back to `_to_float`: a plain
number, or a Rational given as a (numerator, denominator) pair. -/
inductive ExifNum
  | int (n : ℤ)
  | rat (num den : ℤ)
deriving DecidableEq

/-- Embeds `_to_float` (`extract.py`, lines 15–19): a (num, den) pair divides,
except that a zero denominator yields `0.0` (`v[0] / v[1] if v[1] else 0.0`);
a plain number is cast. -/
def _to_float : ExifNum → ℚ
  | .int n => (n : ℚ)
  | .rat n d => if d = 0 then 0 else (n : ℚ) / (d : ℚ)

/-- Embeds `_dms_to_decimal` (`extract.py`, lines 22–28). -/
def _dms_to_decimal (dms : ℚ × ℚ × ℚ) (ref : String) : ℚ :=
  let decimal := dms.1 + dms.2.1 / 60 + dms.2.2 / 3600
  if ref = "S" ∨ ref = "W" then -decimal else decimal

/-- The GPS IFD fields read by `extract` (`extract.py`, lines 52–55):
tag 2 `GPSLatitude`, tag 1 `GPSLatitudeRef`, tag 4 `GPSLongitude`,
tag 3 `GPSLongitudeRef`; each `none` when `gps.get(tag)` returns `None`. -/
structure GpsIfd where
  latitudeRef : Option String
  latitude : Option (List ExifNum)
  longitudeRef : Option String
  longitude : Option (List ExifNum)
deriving DecidableEq

/-- Python `not gps`, the emptiness test on the IFD dictionary: the IFD dictionary is empty.  (Tags other
than 1–4 are not modelled; an IFD holding only other tags takes the
`not all([...])` exit below instead, with the same `None` result.) -/
def GpsIfd.isEmpty (g : GpsIfd) : Bool :=
  g.latitudeRef.isNone && g.latitude.isNone &&
    g.longitudeRef.isNone && g.longitude.isNone

/-- The input `extract` sees for one image: whether `img.getexif()` is
truthy, and the GPS IFD contents. -/
structure ImageExif where
  exifPresent : Bool
  gps : GpsIfd
deriving DecidableEq

/-- Python truthiness of an optional string (`None` and `""` are falsy). -/
def truthyStr : Option String → Bool
  | none => false
  | some s => s ≠ ""

/-- Python truthiness of an optional tuple (`None` and `()` are falsy). -/
def truthyList : Option (List ExifNum) → Bool
  | none => false
  | some l => !l.isEmpty

/-- Embeds `extract` (`extract.py`, lines 43–68).  The final `match` arm with
wildcards is the `len(lat_data) != 3 or len(lon_data) != 3` guard of
lines 58–59. -/
def extract (img : ImageExif) : Option (ℚ × ℚ) :=
  if !img.exifPresent then none
  else if img.gps.isEmpty then none
  else
    let lat_data := img.gps.latitude
    let lat_ref := img.gps.latitudeRef
    let lon_data := img.gps.longitude
    let lon_ref := img.gps.longitudeRef
    if !(truthyList lat_data && truthyStr lat_ref &&
          truthyList lon_data && truthyStr lon_ref) then none
    else
      match lat_data, lat_ref, lon_data, lon_ref with
      | some [a0, a1, a2], some lr, some [b0, b1, b2], some nr =>
          some
            (_dms_to_decimal (_to_float a0, _to_float a1, _to_float a2) lr,
             _dms_to_decimal (_to_float b0, _to_float b1, _to_float b2) nr)
      | _, _, _, _ => none

/-! ### `pothole_batcher/geocode.py` — reverse geocoding (claim C8) -/

/-- A value inside the provider's raw structured response. -/
inductive RawVal
  | str (s : String)
  | num (n : ℤ)
  | dict (kvs : List (String × RawVal))
  | arr (xs : List RawVal)

/-- The provider's `Location`: the `raw` dictionary and the display
`address` (optional, `location.address` may be `None`). -/
structure Location where
  raw : List (String × RawVal)
  address : Option String

/-- Embeds `GeocodedResult` (`geocode.py`, lines 13–18). -/
structure GeocodedResult where
  postcode : String
  address : String
deriving DecidableEq

/-- Embeds `reverse_geocode` (`geocode.py`, lines 21–37).  The provider call
`geolocator.reverse(...)` is the input: `Except.error` when it raises,
`Except.ok none` when it returns no location, `Except.ok (some loc)`
otherwise.  The `try/except Exception: return None` is the `.error` arm. -/
def reverse_geocode (resp : Except Unit (Option Location)) :
    Option GeocodedResult :=
  match resp with
  | .error _ => none
  | .ok none => none
  | .ok (some loc) =>
      let raw : List (String × RawVal) :=
        if loc.raw.isEmpty then []
        else
          match loc.raw.lookup "address" with
          | some (.dict kvs) => kvs
          | _ => []
      let postcode : String :=
        match raw.lookup "postcode" with
        | some (.str s) => pyStrip s
        | _ => ""
      if postcode = "" then none
      else some ⟨postcode, loc.address.getD ""⟩

/-! ### `cli.py` `main` — earliest-image selection (claim C2) -/

/-- Embeds `ExtractedData` (`extract.py`, lines 81–88); `name` is the `path.name`
string that `_sort_key` compares. -/
structure ExtractedData where
  name : String
  lat : ℚ
  lon : ℚ
  datetime_taken : Option String
deriving DecidableEq

/-- Python `value or default` on an optional string (`None` and `""` fall
through to the default). -/
def pyOrStr (o : Option String) (dflt : String) : String :=
  match o with
  | none => dflt
  | some s => if s = "" then dflt else s

/-- The sentinel `"9999-99-99 99:99"` used for missing timestamps
(`cli.py`, line 499). -/
def sentinelTimestamp : String := "9999-99-99 99:99"

/-- Embeds `_sort_key` (`cli.py`, lines 498–500):
`dt = e.datetime_taken or "9999-99-99 99:99"; return (dt, e.path.name)`. -/
def _sort_key (e : ExtractedData) : String × String :=
  (pyOrStr e.datetime_taken sentinelTimestamp, e.name)

/-- Lexicographic character-list comparison (executable form of Python's
string `<`). -/
def strLtb : List Char → List Char → Bool
  | [], [] => false
  | [], _ :: _ => true
  | _ :: _, [] => false
  | c :: cs, d :: ds => decide (c < d) || (decide (c = d) && strLtb cs ds)

/-- Python tuple comparison on the two-string sort keys. -/
def keyLt (a b : String × String) : Bool :=
  strLtb a.1.data b.1.data || (decide (a.1 = b.1) && strLtb a.2.data b.2.data)

/-- Embeds `extracted_list.sort(key=_sort_key); earliest = extracted_list[0]`
(`cli.py`, lines 497–503).  Python's sort is stable, so the head of the
sorted list is the first element with minimal key; this fold computes
exactly that element. -/
def selectEarliest : List ExtractedData → Option ExtractedData
  | [] => none
  | e :: es =>
      some (es.foldl
        (fun acc x => if keyLt (_sort_key x) (_sort_key acc) then x else acc) e)

/-- A capture timestamp as produced by `extract_datetime`
(`extract.py`, lines 31–41): `dt.strftime("%Y-%m-%d %H:%M")`, i.e. four
year digits, two-digit zero-padded month (hence leading digit 0 or 1),
day, hour, minute, with `-`, `-`, `' '`, `:` separators. -/
def wfTimestamp (t : String) : Bool :=
  match t.data with
  | [y0, y1, y2, y3, c1, m0, m1, c2, d0, d1, c3, h0, h1, c4, n0, n1] =>
      y0.isDigit && y1.isDigit && y2.isDigit && y3.isDigit &&
      c1 = '-' && (m0 = '0' || m0 = '1') && m1.isDigit && c2 = '-' &&
      d0.isDigit && d1.isDigit && c3 = ' ' && h0.isDigit && h1.isDigit &&
      c4 = ':' && n0.isDigit && n1.isDigit
  | _ => false

/-- All timestamps present in an extraction result are well-formed. -/
def wfExtract (e : ExtractedData) : Bool :=
  match e.datetime_taken with
  | some t => wfTimestamp t
  | none => true

/-! ### `cli.py` `_generate_report_text` (claims C3, C4, C5) -/

/-- The attribute selection passed to `_generate_report_text`: the selected
value of each of the six recognized categories, `none` when the key is
absent (for `location` / `visibility` the value may be a comma-separated
string). -/
structure Selection where
  depth : Option String := none
  edge : Option String := none
  width : Option String := none
  location : Option String := none
  visibility : Option String := none
  surface : Option String := none
deriving DecidableEq

/-- Dictionary access `attributes[key]` for the six recognized keys the
function reads. -/
def Selection.get (sel : Selection) : String → Option String
  | "depth" => sel.depth
  | "edge" => sel.edge
  | "width" => sel.width
  | "location" => sel.location
  | "visibility" => sel.visibility
  | "surface" => sel.surface
  | _ => none

/-- A dictionary of dictionaries in insertion order: the shape of the
validated `attributes` section and of mapping-valued `attribute_phrases`
entries, which is what `_generate_report_text` operates on. -/
abbrev Tables := List (String × List (String × String))

/-- The config fields `_generate_report_text` reads (`cli.py`,
lines 30–32). -/
structure Config where
  report_template : String := ""
  attribute_phrases : Tables := []
  attributes : Tables := []
deriving DecidableEq

/-- Membership of a character in a character list (Python `"," in value`). -/
def containsChar (c : Char) : List Char → Bool
  | [] => false
  | d :: r => d = c || containsChar c r

/-- Python `value.split(",")`: split at every comma; `n` commas give
`n + 1` pieces. -/
def splitOnComma : List Char → List (List Char)
  | [] => [[]]
  | c :: rest =>
      if c = ',' then [] :: splitOnComma rest
      else
        match splitOnComma rest with
        | h :: t => (c :: h) :: t
        | [] => [[c]]

/-- Embeds `_parse_value` (`cli.py`, lines 35–39): with a comma present, split,
strip each piece and keep the non-empty ones; otherwise a singleton (or
nothing for the empty string). -/
def _parse_value (value : String) : List String :=
  if containsChar ',' value.data then
    ((splitOnComma value.data).map fun p => pyStrip ⟨p⟩).filter fun v => v ≠ ""
  else if value = "" then [] else [value]

/-- The composite severity key parts (`cli.py`, lines 43–49): the first
parsed value of each of `depth`, `edge`, `location` that is selected and
truthy. -/
def severityKeyParts (attributes : Selection) : List String :=
  ["depth", "edge", "location"].filterMap fun key =>
    match attributes.get key with
    | some v => if v ≠ "" then (_parse_value v).head? else none
    | none => none

/-- Severity lookup (`cli.py`, lines 51–56): join the parts with `_`, look
the key up in the `severity` sub-table, defaulting to `"MEDIUM RISK"`; the
lookup is skipped entirely when no part is present or the `severity`
sub-table is absent. -/
def severityFor (attributes : Selection) (phrases : Tables) : String :=
  let parts := severityKeyParts attributes
  if parts.isEmpty then "MEDIUM RISK"
  else
    match phrases.lookup "severity" with
    | some tbl => (tbl.lookup (String.intercalate "_" parts)).getD "MEDIUM RISK"
    | none => "MEDIUM RISK"

/-- One value resolved by the phrase-priority chain of the category loop
(`cli.py`, lines 72–78 for the multi-value branch, lines 83–90 for the
single-value branch, which inlines the same chain):
`attribute_phrases[phrase_key][val]`, else `attributes[attr_name][val]`,
else `val`. -/
def resolveValue (phrases attrs : Tables) (attr_name phrase_key val : String) :
    String :=
  match (phrases.lookup phrase_key).bind fun tbl => tbl.lookup val with
  | some p => p
  | none =>
      match (attrs.lookup attr_name).bind fun tbl => tbl.lookup val with
      | some d => d
      | none => val

/-- The loop body of `_generate_report_text` for one selected category
(`cli.py`, lines 62–90): the replacement string recorded under
`attr_name ++ "_description"`. -/
def categoryReplacement (phrases attrs : Tables) (attr_name attr_value : String) :
    String :=
  let phrase_key := attr_name ++ "_description"
  if attr_name = "location" ∨ attr_name = "visibility" then
    let values := _parse_value attr_value
    let descriptions :=
      values.map (resolveValue phrases attrs attr_name phrase_key)
    if descriptions.length > 1 then String.intercalate " and " descriptions
    else (descriptions.head?).getD ""
  else resolveValue phrases attrs attr_name phrase_key attr_value

/-- The ordered replacement dictionary of `_generate_report_text`
(`cli.py`, lines 58–90): `severity` first, then one entry per selected
truthy category in the fixed order depth, edge, width, location,
visibility, surface. -/
def replacements (attributes : Selection) (phrases attrs : Tables) :
    List (String × String) :=
  ("severity", severityFor attributes phrases) ::
    (["depth", "edge", "width", "location", "visibility", "surface"].filterMap
      fun attr_name =>
        match attributes.get attr_name with
        | some v =>
            if v ≠ "" then
              some (attr_name ++ "_description",
                categoryReplacement phrases attrs attr_name v)
            else none
        | none => none)

/-- Python `result.replace(pat, repl)` scanning left to right without
overlap; `skip` counts pattern characters still to be consumed after a
match (the patterns used are the non-empty `"{placeholder}"` strings). -/
def replaceAllAux (pat repl : List Char) : List Char → Nat → List Char
  | [], _ => []
  | c :: rest, skip =>
      match skip with
      | k + 1 => replaceAllAux pat repl rest k
      | 0 =>
          if pat ≠ [] && pat.isPrefixOf (c :: rest) then
            repl ++ replaceAllAux pat repl rest (pat.length - 1)
          else c :: replaceAllAux pat repl rest 0

/-- Python `result.replace(pat, repl)`. -/
def replaceAll (pat repl l : List Char) : List Char :=
  replaceAllAux pat repl l 0

/-- Embeds `re.sub(r"\{[^}]+\}", "", result)` (`cli.py`, line 99), scanning left
to right.  The state is `none` outside any candidate match and
`some buf` after an opening brace, `buf` holding (reversed) the interior
characters read so far; a close brace deletes the candidate when the
interior is non-empty, and `"{}"` or an unclosed brace is emitted
verbatim, exactly as the regex leaves it. -/
def stripPlaceholdersAux : List Char → Option (List Char) → List Char
  | [], none => []
  | [], some buf => '\x7b' :: buf.reverse
  | c :: rest, none =>
      if c = '\x7b' then stripPlaceholdersAux rest (some [])
      else c :: stripPlaceholdersAux rest none
  | c :: rest, some buf =>
      if c = '\x7d' then
        if buf.isEmpty then
          '\x7b' :: '\x7d' :: stripPlaceholdersAux rest none
        else stripPlaceholdersAux rest none
      else stripPlaceholdersAux rest (some (c :: buf))

/-- Embeds `re.sub(r"\{[^}]+\}", "", result)`. -/
def stripPlaceholders (l : List Char) : List Char :=
  stripPlaceholdersAux l none

/-- Embeds `re.sub(r"\s+", " ", result)` (`cli.py`, line 101): each maximal
whitespace run becomes a single space; the flag records whether the
previous character was whitespace. -/
def collapseWsAux : Bool → List Char → List Char
  | _, [] => []
  | prevWs, c :: rest =>
      if isPySpace c then
        if prevWs then collapseWsAux true rest
        else ' ' :: collapseWsAux true rest
      else c :: collapseWsAux false rest

/-- Embeds `re.sub(r"\s+", " ", result)`. -/
def collapseWs (l : List Char) : List Char :=
  collapseWsAux false l

/-- Embeds `_generate_report_text` (`cli.py`, lines 19–103): fill the template
with the replacement dictionary in order, delete the remaining
placeholders, collapse whitespace and strip. -/
def _generate_report_text (attributes : Selection) (config : Config) : String :=
  let reps := replacements attributes config.attribute_phrases config.attributes
  let filled : String :=
    reps.foldl
      (fun result pv =>
        ⟨replaceAll ("\x7b" ++ pv.1 ++ "\x7d").data pv.2.data result.data⟩)
      config.report_template
  pyStrip ⟨collapseWs (stripPlaceholders filled.data)⟩

/-- The spec's description of severity inference: take the first selected
value of each of `depth`, `edge`, `location` (in that fixed priority
order) that is present, join them with `_`, look the composite key up in
the `severity` sub-table, and default to the literal `"MEDIUM RISK"` when
the key or the sub-table is absent; no category is required. -/
def severitySpec (sel : Selection) (phrases : Tables) : String :=
  let firstVal : Option String → Option String := fun o =>
    match o with
    | some v => if v ≠ "" then (_parse_value v).head? else none
    | none => none
  let parts :=
    [firstVal sel.depth, firstVal sel.edge, firstVal sel.location].filterMap id
  if parts.isEmpty then "MEDIUM RISK"
  else
    match phrases.lookup "severity" with
    | some tbl => (tbl.lookup (String.intercalate "_" parts)).getD "MEDIUM RISK"
    | none => "MEDIUM RISK"

/-- The spec's priority rule for one display phrase: an exact match in
`attribute_phrases[<category>_description]`, else the plain description
from `attributes[<category>]`, else the raw selected value-key itself. -/
def resolveSpec (phrases attrs : Tables) (category val : String) : String :=
  ((phrases.lookup (category ++ "_description")).bind fun tbl =>
      tbl.lookup val).getD
    (((attrs.lookup category).bind fun tbl => tbl.lookup val).getD val)

/-- The spec's joining rule for multi-value categories: join with
`" and "` when more than one phrase, use a single phrase unmodified. -/
def joinAnd : List String → String
  | [] => ""
  | [d] => d
  | ds => String.intercalate " and " ds

/-! Checkers for the shape of generated report text (claim C5). -/

/-- The list begins with the interior-plus-close of a `\{[^}]+\}` match:
a first character other than `'}'` and a later `'}'`. -/
def tokFrom : List Char → Bool
  | [] => false
  | c :: r => !(c = '\x7d') && containsChar '\x7d' r

/-- The list contains a `\{[^}]+\}` token: an opening brace, a non-empty
run free of `'}'`, and a closing brace. -/
def hasBraceTok : List Char → Bool
  | [] => false
  | c :: rest => (c = '\x7b' && tokFrom rest) || hasBraceTok rest

/-- No two adjacent whitespace characters. -/
def noDoubleWs : List Char → Bool
  | [] => true
  | [_] => true
  | a :: b :: rest => !(isPySpace a && isPySpace b) && noDoubleWs (b :: rest)

/-- Neither the first nor the last character is whitespace. -/
def noEdgeWs (l : List Char) : Bool :=
  (match l.head? with
   | some c => !isPySpace c
   | none => true) &&
  (match l.getLast? with
   | some c => !isPySpace c
   | none => true)

/-! ### `config.py` `load_config` (claims C1, C9) -/

/-- A YAML value as `yaml.safe_load` returns it (mapping keys are taken to
be strings, as in every config this tool reads). -/
inductive Yaml
  | nullV
  | boolV (b : Bool)
  | intV (n : ℤ)
  | strV (s : String)
  | listV (xs : List Yaml)
  | mapV (kvs : List (String × Yaml))

/-- Python `str(x)` on a YAML value.  Scalars are rendered exactly;
container reprs are abbreviated (no claim depends on their exact text). -/
def pyStr : Yaml → String
  | .nullV => "None"
  | .boolV true => "True"
  | .boolV false => "False"
  | .intV n => toString n
  | .strV s => s
  | .listV _ => "[...]"
  | .mapV _ => "\x7b...\x7d"

/-- The distinct failures `load_config` can raise (`FileNotFoundError` and
the `ValueError`s of `config.py`, lines 60–155). -/
inductive ConfigError
  | fileNotFound
  | emailNotFound
  | attributesMissing
  | attributesNotDict
  | attrValuesNotDict (attr : String)
  | attrDescNotString (attr value : String)
  | templateMissing
  | templateNotString
deriving DecidableEq

/-- A loaded `attribute_phrases` entry: a normalized sub-table when the
YAML value was a mapping, otherwise its stringification
(`config.py`, lines 113–120). -/
inductive PhraseVal
  | table (kvs : List (String × String))
  | str (s : String)
deriving DecidableEq

/-- The loaded `advice_for_reporters` section (`config.py`,
lines 126–133). -/
structure Advice where
  key_phrases : List String
  pro_tip : String
deriving DecidableEq

/-- The result dictionary of `load_config` (`config.py`, lines 135–145);
the private bookkeeping keys (`_loaded_from` etc.) are omitted. -/
structure LoadedConfig where
  report_url : String
  email : String
  attributes : Tables
  report_template : String
  attribute_phrases : List (String × PhraseVal)
  advice_for_reporters : Advice
deriving DecidableEq

/-- Inner loop of `_validate_attributes` (`config.py`, lines 53–57). -/
def validateDescs (attr : String) :
    List (String × Yaml) → Except ConfigError Unit
  | [] => .ok ()
  | (_, .strV _) :: rest => validateDescs attr rest
  | (k, _) :: _ => .error (.attrDescNotString attr k)

/-- Outer loop of `_validate_attributes` (`config.py`, lines 48–52). -/
def validateAttrList : List (String × Yaml) → Except ConfigError Unit
  | [] => .ok ()
  | (name, .mapV vals) :: rest =>
      match validateDescs name vals with
      | .ok () => validateAttrList rest
      | .error e => .error e
  | (name, _) :: _ => .error (.attrValuesNotDict name)

/-- Embeds `_validate_attributes` (`config.py`, lines 40–57). -/
def _validate_attributes : Yaml → Except ConfigError Unit
  | .mapV kvs => validateAttrList kvs
  | _ => .error .attributesNotDict

/-- Attribute normalization (`config.py`, lines 90–96): keep the mapping
entries, stringify keys and values. -/
def normalizeAttributes (kvs : List (String × Yaml)) : Tables :=
  kvs.filterMap fun nv =>
    match nv.2 with
    | .mapV vals => some (nv.1, vals.map fun kv => (kv.1, pyStr kv.2))
    | _ => none

/-- Loading of `attribute_phrases` (`config.py`, lines 110–120): a non-mapping
section degrades to empty; a mapping entry becomes a normalized sub-table,
any other entry becomes its stringification. -/
def loadPhrases : Yaml → List (String × PhraseVal)
  | .mapV kvs =>
      kvs.map fun pv =>
        (pv.1,
          match pv.2 with
          | .mapV vals => PhraseVal.table (vals.map fun kv => (kv.1, pyStr kv.2))
          | other => PhraseVal.str (pyStr other))
  | _ => []

/-- Loading of `advice_for_reporters` (`config.py`, lines 123–133): a
non-mapping section degrades to the default; a non-list `key_phrases`
degrades to `[]`; `pro_tip` is stringified with default `""`. -/
def loadAdvice (raw : Yaml) : Advice :=
  let kvs := match raw with
    | .mapV kvs => kvs
    | _ => []
  { key_phrases :=
      match kvs.lookup "key_phrases" with
      | some (.listV items) => items.map pyStr
      | _ => []
    pro_tip :=
      match kvs.lookup "pro_tip" with
      | some v => pyStr v
      | none => "" }

/-- Embeds `load_config` (`config.py`, lines 60–155).  `found` is the parsed
mapping of the first existing config file (`none` when no search path
exists, the `FileNotFoundError` at the end); `keyring` is
`keyring.get_password SERVICE_NAME ·`.  A key holding YAML `null` behaves
like an absent key under `dict.get`, hence the `some .nullV` arms. -/
def load_config (found : Option (List (String × Yaml)))
    (keyring : String → Option String) : Except ConfigError LoadedConfig :=
  match found with
  | none => .error .fileNotFound
  | some data =>
      let report_url := pyStr ((data.lookup "report_url").getD
        (.strV "https://www.fillthathole.org.uk"))
      let keyring_account := pyStr ((data.lookup "keyring_account").getD
        (.strV "email"))
      let email : Option String :=
        match keyring keyring_account with
        | none => none
        | some v => if v = "" then none else some (pyStrip v)
      match email with
      | none => .error .emailNotFound
      | some e =>
        if e = "" then .error .emailNotFound
        else
          match data.lookup "attributes" with
          | none => .error .attributesMissing
          | some .nullV => .error .attributesMissing
          | some raw_attributes =>
            match _validate_attributes raw_attributes with
            | .error er => .error er
            | .ok () =>
              let attributes := match raw_attributes with
                | .mapV kvs => normalizeAttributes kvs
                | _ => []
              match data.lookup "report_template" with
              | none => .error .templateMissing
              | some .nullV => .error .templateMissing
              | some (.strV report_template) =>
                  .ok { report_url := report_url
                        email := e
                        attributes := attributes
                        report_template := report_template
                        attribute_phrases := loadPhrases
                          ((data.lookup "attribute_phrases").getD (.mapV []))
                        advice_for_reporters := loadAdvice
                          ((data.lookup "advice_for_reporters").getD
                            (.mapV [])) }
              | some _ => .error .templateNotString

/-- The validation order actually implemented: file existence → email
presence in the credential store → `attributes` presence → `attributes`
structural shape → `report_template` presence → `report_template` type,
short-circuiting at the first failure. -/
def expectedError (found : Option (List (String × Yaml)))
    (keyring : String → Option String) : Option ConfigError :=
  match found with
  | none => some .fileNotFound
  | some data =>
      let keyring_account := pyStr ((data.lookup "keyring_account").getD
        (.strV "email"))
      let emailOk : Bool :=
        match keyring keyring_account with
        | none => false
        | some v => !(v = "") && !(pyStrip v = "")
      if !emailOk then some .emailNotFound
      else
        match data.lookup "attributes" with
        | none => some .attributesMissing
        | some .nullV => some .attributesMissing
        | some raw =>
            match _validate_attributes raw with
            | .error e => some e
            | .ok () =>
                match data.lookup "report_template" with
                | none => some .templateMissing
                | some .nullV => some .templateMissing
                | some (.strV _) => none
                | some _ => some .templateNotString

/-! Theorems and checked examples. -/

example : fmtMicro (round6micro 0) = "0.0" := by decide
example : fmtMicro (round6micro (mkRat 103 2)) = "51.5" := by decide
example : rstripSlash "https://x.org/" = "https://x.org" := by rfl
example :
    (build_report_record_urls "https://x.org/" 0 0).1 =
      "https://x.org/around?lat=0.0&lon=0.0&zoom=4" := by decide

theorem digit_lt_or_eq_nine {c : Char} (h : c.isDigit = true) :
    c < '9' ∨ c = '9' := by
  simp only [Char.isDigit, Bool.and_eq_true, decide_eq_true_eq] at h
  exact lt_or_eq_of_le h.2

/-- Any well-formed timestamp sorts strictly before the missing-timestamp
sentinel. -/
theorem wfTimestamp_lt_sentinel {t : String} (h : wfTimestamp t = true) :
    t < sentinelTimestamp := by
  rw [String.lt_iff_toList_lt]
  unfold wfTimestamp at h
  split at h
  case _ y0 y1 y2 y3 c1 m0 m1 c2 d0 d1 c3 h0 h1 c4 n0 n1 heq =>
    simp only [Bool.and_eq_true, Bool.or_eq_true, decide_eq_true_eq] at h
    obtain ⟨⟨⟨⟨⟨⟨⟨⟨⟨⟨⟨⟨⟨⟨⟨hy0, hy1⟩, hy2⟩, hy3⟩, hc1⟩, hm0⟩, hm1⟩, hc2⟩,
      hd0⟩, hd1⟩, hc3⟩, hh0⟩, hh1⟩, hc4⟩, hn0⟩, hn1⟩ := h
    subst hc1 hc2 hc3 hc4
    show t.data < sentinelTimestamp.data
    rw [heq]
    show List.Lex (· < ·) _
      ['9', '9', '9', '9', '-', '9', '9', '-', '9', '9', ' ', '9', '9',
        ':', '9', '9']
    rcases digit_lt_or_eq_nine hy0 with hlt | rfl
    · exact List.Lex.rel hlt
    apply List.Lex.cons
    rcases digit_lt_or_eq_nine hy1 with hlt | rfl
    · exact List.Lex.rel hlt
    apply List.Lex.cons
    rcases digit_lt_or_eq_nine hy2 with hlt | rfl
    · exact List.Lex.rel hlt
    apply List.Lex.cons
    rcases digit_lt_or_eq_nine hy3 with hlt | rfl
    · exact List.Lex.rel hlt
    apply List.Lex.cons
    apply List.Lex.cons
    rcases hm0 with rfl | rfl
    · exact List.Lex.rel (by decide)
    · exact List.Lex.rel (by decide)
  · exact absurd h (by simp)

theorem wfTimestamp_ne_empty {t : String} (h : wfTimestamp t = true) :
    t ≠ "" := by
  rintro rfl
  exact absurd h (by decide)

theorem strLtb_iff_lex : ∀ as bs : List Char,
    strLtb as bs = true ↔ List.Lex (· < ·) as bs := by
  intro as
  induction as with
  | nil =>
      intro bs
      cases bs with
      | nil =>
          simp only [strLtb]
          constructor
          · intro h; exact absurd h (by simp)
          · intro h; exact absurd h (List.Lex.not_nil_right _ _)
      | cons b bs =>
          simp only [strLtb]
          exact ⟨fun _ => List.Lex.nil, fun _ => trivial⟩
  | cons c cs ih =>
      intro bs
      cases bs with
      | nil =>
          simp only [strLtb]
          constructor
          · intro h; exact absurd h (by simp)
          · intro h; exact absurd h (List.Lex.not_nil_right _ _)
      | cons d ds =>
          simp only [strLtb, Bool.or_eq_true, Bool.and_eq_true,
            decide_eq_true_eq, ih]
          constructor
          · rintro (h | ⟨rfl, h⟩)
            · exact List.Lex.rel h
            · exact List.Lex.cons h
          · intro h
            cases h with
            | rel h => exact Or.inl h
            | cons h => exact Or.inr ⟨rfl, h⟩

theorem strLtb_iff_str {a b : String} : strLtb a.data b.data = true ↔ a < b := by
  rw [String.lt_iff_toList_lt]
  exact strLtb_iff_lex a.data b.data

theorem keyLt_eq_true_iff {a b : String × String} :
    keyLt a b = true ↔ toLex a < toLex b := by
  rw [Prod.Lex.lt_iff]
  simp only [keyLt, Bool.or_eq_true, Bool.and_eq_true, decide_eq_true_eq,
    strLtb_iff_str]

theorem keyLt_eq_false_iff {a b : String × String} :
    keyLt a b = false ↔ toLex b ≤ toLex a := by
  rw [← Bool.not_eq_true, keyLt_eq_true_iff, not_lt]

/-- The selection fold returns an element of the list whose sort key is
minimal in the lexicographic order on (timestamp, filename) pairs. -/
theorem foldMin_spec (e : ExtractedData) (es : List ExtractedData) :
    (es.foldl
        (fun acc x => if keyLt (_sort_key x) (_sort_key acc) then x else acc) e)
      ∈ e :: es ∧
    ∀ x ∈ e :: es,
      toLex (_sort_key (es.foldl
        (fun acc x => if keyLt (_sort_key x) (_sort_key acc) then x else acc) e))
        ≤ toLex (_sort_key x) := by
  induction es generalizing e with
  | nil =>
      refine ⟨List.mem_singleton.mpr rfl, ?_⟩
      intro x hx
      rw [List.mem_singleton] at hx
      subst hx
      exact le_refl _
  | cons x xs ih =>
      rw [List.foldl_cons]
      by_cases hk : keyLt (_sort_key x) (_sort_key e) = true
      · rw [if_pos hk]
        obtain ⟨hmem, hmin⟩ := ih x
        refine ⟨List.mem_cons_of_mem _ hmem, ?_⟩
        intro y hy
        rcases List.mem_cons.mp hy with rfl | hy'
        · exact le_trans (hmin _ (List.mem_cons_self _ _))
            (le_of_lt (keyLt_eq_true_iff.mp hk))
        · exact hmin _ hy'
      · rw [if_neg hk]
        have hk' : keyLt (_sort_key x) (_sort_key e) = false := by
          simpa using hk
        obtain ⟨hmem, hmin⟩ := ih e
        constructor
        · rcases List.mem_cons.mp hmem with hr | hr
          · rw [hr]; exact List.mem_cons_self _ _
          · exact List.mem_cons_of_mem _ (List.mem_cons_of_mem _ hr)
        · intro y hy
          rcases List.mem_cons.mp hy with rfl | hy'
          · exact hmin _ (List.mem_cons_self _ _)
          rcases List.mem_cons.mp hy' with rfl | hy''
          · exact le_trans (hmin _ (List.mem_cons_self _ _))
              (keyLt_eq_false_iff.mp hk')
          · exact hmin _ (List.mem_cons_of_mem _ hy'')

/-- C2: for every non-empty list of extracted images whose timestamps have
the normalized `YYYY-MM-DD HH:MM` shape produced by `extract_datetime`, the
image selected for geocoding and the report is a member of the list such
that: it has a timestamp whenever any image does (no-timestamp images sort
after all timestamped ones); its timestamp is the earliest among all
timestamped images; and among images with the same effective timestamp
(including the all-missing case) it has the lexicographically smallest
filename. -/
theorem C2_earliest_image_selected (l : List ExtractedData) (hne : l ≠ [])
    (hwf : l.all wfExtract = true) :
    ∃ s, selectEarliest l = some s ∧ s ∈ l ∧
      ((∃ e ∈ l, e.datetime_taken ≠ none) → s.datetime_taken ≠ none) ∧
      (∀ e ∈ l, ∀ ts te, s.datetime_taken = some ts →
          e.datetime_taken = some te → ts ≤ te) ∧
      (∀ e ∈ l, pyOrStr e.datetime_taken sentinelTimestamp =
          pyOrStr s.datetime_taken sentinelTimestamp → s.name ≤ e.name) := by
  match l, hne, hwf with
  | e :: es, _, hwf =>
    obtain ⟨hmem, hmin⟩ := foldMin_spec e es
    set s : ExtractedData :=
      es.foldl
        (fun acc x => if keyLt (_sort_key x) (_sort_key acc) then x else acc) e
      with hs
    have hwf' : ∀ y ∈ e :: es, wfExtract y = true := List.all_eq_true.mp hwf
    refine ⟨s, ?_, hmem, ?_, ?_, ?_⟩
    · rw [hs]; rfl
    · rintro ⟨e', he', hdt⟩
      cases hs' : s.datetime_taken with
      | some _ => simp
      | none =>
        exfalso
        obtain ⟨t, ht⟩ := Option.ne_none_iff_exists'.mp hdt
        have hwft : wfTimestamp t = true := by
          have := hwf' e' he'
          simp only [wfExtract, ht] at this
          exact this
        have hlt : t < sentinelTimestamp := wfTimestamp_lt_sentinel hwft
        have hle := hmin e' he'
        rw [Prod.Lex.le_iff] at hle
        have h1 : (_sort_key s).1 = sentinelTimestamp := by
          simp [_sort_key, pyOrStr, hs']
        have h2 : (_sort_key e').1 = t := by
          simp [_sort_key, pyOrStr, ht, wfTimestamp_ne_empty hwft]
        rcases hle with hlt' | ⟨heq, _⟩
        · rw [h1, h2] at hlt'
          exact absurd hlt' (not_lt_of_gt hlt)
        · rw [h1, h2] at heq
          rw [heq] at hlt
          exact lt_irrefl _ hlt
    · intro e' he' ts te hsts hete
      have hwfs : wfTimestamp ts = true := by
        have := hwf' _ hmem
        simp only [wfExtract, hsts] at this
        exact this
      have hwfe : wfTimestamp te = true := by
        have := hwf' e' he'
        simp only [wfExtract, hete] at this
        exact this
      have hle := hmin e' he'
      rw [Prod.Lex.le_iff] at hle
      have h1 : (_sort_key s).1 = ts := by
        simp [_sort_key, pyOrStr, hsts, wfTimestamp_ne_empty hwfs]
      have h2 : (_sort_key e').1 = te := by
        simp [_sort_key, pyOrStr, hete, wfTimestamp_ne_empty hwfe]
      rcases hle with hlt' | ⟨heq, _⟩
      · rw [h1, h2] at hlt'
        exact le_of_lt hlt'
      · rw [h1, h2] at heq
        exact le_of_eq heq
    · intro e' he' hkey
      have hle := hmin e' he'
      rw [Prod.Lex.le_iff] at hle
      rcases hle with hlt' | ⟨_, hle2⟩
      · exfalso
        have heq1 : (_sort_key e').1 = (_sort_key s).1 := hkey
        rw [heq1] at hlt'
        exact lt_irrefl _ hlt'
      · exact hle2

/-- Witness for C2, on the spec's worked example: photo `a.jpg` taken
`2025-01-02 10:00`, photo `b.jpg` taken `2025-01-01 09:00`, photo `c.jpg`
with no timestamp. -/
theorem C2_earliest_image_selected_witness :
    ∃ s, selectEarliest
        [⟨"a.jpg", 0, 0, some "2025-01-02 10:00"⟩,
         ⟨"b.jpg", 0, 0, some "2025-01-01 09:00"⟩,
         ⟨"c.jpg", 0, 0, none⟩] = some s ∧
      s ∈ [(⟨"a.jpg", 0, 0, some "2025-01-02 10:00"⟩ : ExtractedData),
         ⟨"b.jpg", 0, 0, some "2025-01-01 09:00"⟩,
         ⟨"c.jpg", 0, 0, none⟩] ∧
      ((∃ e ∈ [(⟨"a.jpg", 0, 0, some "2025-01-02 10:00"⟩ : ExtractedData),
         ⟨"b.jpg", 0, 0, some "2025-01-01 09:00"⟩,
         ⟨"c.jpg", 0, 0, none⟩], e.datetime_taken ≠ none) →
        s.datetime_taken ≠ none) ∧
      (∀ e ∈ [(⟨"a.jpg", 0, 0, some "2025-01-02 10:00"⟩ : ExtractedData),
         ⟨"b.jpg", 0, 0, some "2025-01-01 09:00"⟩,
         ⟨"c.jpg", 0, 0, none⟩], ∀ ts te, s.datetime_taken = some ts →
          e.datetime_taken = some te → ts ≤ te) ∧
      (∀ e ∈ [(⟨"a.jpg", 0, 0, some "2025-01-02 10:00"⟩ : ExtractedData),
         ⟨"b.jpg", 0, 0, some "2025-01-01 09:00"⟩,
         ⟨"c.jpg", 0, 0, none⟩],
          pyOrStr e.datetime_taken sentinelTimestamp =
            pyOrStr s.datetime_taken sentinelTimestamp → s.name ≤ e.name) :=
  C2_earliest_image_selected _ (by decide) (by decide)

example :
    selectEarliest
        [⟨"a.jpg", 0, 0, some "2025-01-02 10:00"⟩,
         ⟨"b.jpg", 0, 0, some "2025-01-01 09:00"⟩,
         ⟨"c.jpg", 0, 0, none⟩] =
      some ⟨"b.jpg", 0, 0, some "2025-01-01 09:00"⟩ := by decide

example :
    selectEarliest
        [⟨"b.jpg", 0, 0, some "2025-01-01 09:00"⟩,
         ⟨"a.jpg", 0, 0, some "2025-01-01 09:00"⟩] =
      some ⟨"a.jpg", 0, 0, some "2025-01-01 09:00"⟩ := by decide

example :
    selectEarliest [⟨"b.jpg", 0, 0, none⟩, ⟨"a.jpg", 0, 0, none⟩] =
      some ⟨"a.jpg", 0, 0, none⟩ := by decide

/-- C10: `_to_float` maps an EXIF rational with zero denominator to `0.0`
instead of raising a division-by-zero error, so a zero-denominator DMS
component contributes exactly `0.0` degrees to the converted coordinate. -/
theorem C10_zero_denominator_rational (n : ℤ) (d m : ℚ) (ref : String) :
    _to_float (.rat n 0) = 0 ∧
    _dms_to_decimal (d, m, _to_float (.rat n 0)) ref =
      _dms_to_decimal (d, m, 0) ref := by
  have h : _to_float (.rat n 0) = 0 := rfl
  exact ⟨h, by rw [h]⟩

/-- C7: for every image whose EXIF GPS data is malformed — a DMS triplet
with fewer than 3 components, or any of the four required fields
(latitude value, latitude reference, longitude value, longitude reference)
missing — `extract` returns the no-location result `none` (the embedding
is a total function, so no exception can be raised). -/
theorem C7_malformed_gps_no_location (img : ImageExif)
    (h : (∃ l, img.gps.latitude = some l ∧ l.length < 3) ∨
         (∃ l, img.gps.longitude = some l ∧ l.length < 3) ∨
         img.gps.latitude = none ∨ img.gps.latitudeRef = none ∨
         img.gps.longitude = none ∨ img.gps.longitudeRef = none) :
    extract img = none := by
  obtain ⟨pres, lref, lat, nref, lon⟩ := img
  cases pres with
  | false => rfl
  | true =>
    rcases h with ⟨l, hl, hlen⟩ | ⟨l, hl, hlen⟩ | hl | hl | hl | hl
    · simp only at hl
      subst hl
      rcases l with _ | ⟨a, _ | ⟨b, _ | ⟨c, rest⟩⟩⟩
      · simp [extract, truthyList, GpsIfd.isEmpty]
      · simp [extract, truthyList, GpsIfd.isEmpty]
      · simp [extract, truthyList, GpsIfd.isEmpty]
      · simp at hlen; omega
    · simp only at hl
      subst hl
      rcases lat with _ | l'
      · simp [extract, truthyList, GpsIfd.isEmpty]
      · rcases l' with _ | ⟨a, _ | ⟨b, _ | ⟨c, _ | ⟨e, rest⟩⟩⟩⟩ <;>
          rcases l with _ | ⟨a', _ | ⟨b', _ | ⟨c', rest'⟩⟩⟩ <;>
          (try (simp at hlen; omega)) <;>
          cases lref <;> cases nref <;>
          simp [extract, truthyList, truthyStr, GpsIfd.isEmpty]
    · simp only at hl
      subst hl
      simp [extract, truthyList, GpsIfd.isEmpty]
    · simp only at hl
      subst hl
      simp [extract, truthyStr, GpsIfd.isEmpty]
    · simp only at hl
      subst hl
      simp [extract, truthyList, GpsIfd.isEmpty]
    · simp only at hl
      subst hl
      simp [extract, truthyStr, GpsIfd.isEmpty]

/-- Witness for C7: an image whose latitude triplet has one component. -/
theorem C7_malformed_gps_no_location_witness :
    extract ⟨true, ⟨some "N", some [.int 51], some "W",
      some [.int 0, .int 6, .int 0]⟩⟩ = none :=
  C7_malformed_gps_no_location _ (Or.inl ⟨[.int 51], rfl, by decide⟩)

/-- C8: reverse geocoding yields a present result only when the provider
returned a location whose address substructure holds a postcode that is
non-empty after stripping whitespace; a missing location, missing or
non-mapping address, missing / empty / whitespace-only postcode, and a
raised provider exception all yield the absent result. -/
theorem C8_geocode_requires_postcode :
    (∀ resp r, reverse_geocode resp = some r →
      ∃ loc kvs s, resp = Except.ok (some loc) ∧
        loc.raw.lookup "address" = some (.dict kvs) ∧
        kvs.lookup "postcode" = some (.str s) ∧
        pyStrip s ≠ "" ∧ r = ⟨pyStrip s, loc.address.getD ""⟩) ∧
    (∀ loc kvs s, loc.raw.lookup "address" = some (.dict kvs) →
      kvs.lookup "postcode" = some (.str s) → pyStrip s = "" →
      reverse_geocode (Except.ok (some loc)) = none) ∧
    (∀ e, reverse_geocode (Except.error e) = none) ∧
    reverse_geocode (Except.ok none) = none := by
  refine ⟨?_, ?_, fun _ => rfl, rfl⟩
  · intro resp r hr
    match resp with
    | .error _ => exact absurd hr (by simp [reverse_geocode])
    | .ok none => exact absurd hr (by simp [reverse_geocode])
    | .ok (some loc) =>
      refine ⟨loc, ?_⟩
      simp only [reverse_geocode] at hr
      by_cases hemp : loc.raw.isEmpty
      · rw [if_pos hemp] at hr
        simp at hr
      · rw [if_neg hemp] at hr
        match haddr : loc.raw.lookup "address" with
        | none => rw [haddr] at hr; simp at hr
        | some (.str _) => rw [haddr] at hr; simp at hr
        | some (.num _) => rw [haddr] at hr; simp at hr
        | some (.arr _) => rw [haddr] at hr; simp at hr
        | some (.dict kvs) =>
          rw [haddr] at hr
          refine ⟨kvs, ?_⟩
          match hpc : kvs.lookup "postcode" with
          | none => rw [hpc] at hr; simp at hr
          | some (.num _) => rw [hpc] at hr; simp at hr
          | some (.dict _) => rw [hpc] at hr; simp at hr
          | some (.arr _) => rw [hpc] at hr; simp at hr
          | some (.str s) =>
            rw [hpc] at hr
            by_cases hps : pyStrip s = ""
            · rw [if_pos hps] at hr; exact absurd hr (by simp)
            · rw [if_neg hps] at hr
              exact ⟨s, rfl, rfl, rfl, hps, (Option.some_inj.mp hr).symm⟩
  · intro loc kvs s haddr hpc hps
    simp only [reverse_geocode]
    by_cases hemp : loc.raw.isEmpty
    · rw [if_pos hemp]
      simp
    · rw [if_neg hemp, haddr, hpc, if_pos hps]

/-- Witness for C8: a provider response with postcode `" SW1A 1AA "` and a
whitespace-only postcode response. -/
theorem C8_geocode_requires_postcode_witness :
    (∃ loc kvs s,
        (Except.ok (some (⟨[("address",
            RawVal.dict [("postcode", RawVal.str " SW1A 1AA ")])],
            some "Buckingham Palace"⟩ : Location)) :
          Except Unit (Option Location)) = Except.ok (some loc) ∧
        loc.raw.lookup "address" = some (.dict kvs) ∧
        kvs.lookup "postcode" = some (.str s) ∧
        pyStrip s ≠ "" ∧
        (⟨"SW1A 1AA", "Buckingham Palace"⟩ : GeocodedResult) =
          ⟨pyStrip s, loc.address.getD ""⟩) ∧
    reverse_geocode (Except.ok (some ⟨[("address",
        RawVal.dict [("postcode", RawVal.str "   ")])], some "x"⟩)) = none :=
  ⟨C8_geocode_requires_postcode.1 _ _ (by decide),
   C8_geocode_requires_postcode.2.1 _
     [("postcode", RawVal.str "   ")] "   " rfl rfl (by decide)⟩

example : _parse_value "primary_cycle_line,descent" =
    ["primary_cycle_line", "descent"] := by decide
example : _parse_value " a " = [" a "] := by decide
example : _parse_value "a, b ," = ["a", "b"] := by decide
example : _parse_value "" = [] := by decide

example :
    _generate_report_text { depth := some "gt50mm" }
      { report_template := "\x7bseverity\x7d: \x7bdepth_description\x7d defect \x7bwidth_description\x7d",
        attribute_phrases := [],
        attributes := [("depth", [("gt50mm", "deeper than 50mm")])] } =
      "MEDIUM RISK: deeper than 50mm defect" := by decide

example :
    _generate_report_text
      { location := some "primary_cycle_line,general" }
      { report_template := "\x7blocation_description\x7d",
        attribute_phrases :=
          [("location_description",
            [("primary_cycle_line", "on the primary cycle line"),
             ("general", "in the general carriageway")])],
        attributes := [] } =
      "on the primary cycle line and in the general carriageway" := by decide

/-- C3: report-text generation records, under the `severity` placeholder,
exactly the severity obtained by joining with `_` the first selected value
of each of `depth`, `edge`, `location` (fixed order, none required),
looking the composite key up in the `severity` sub-table of
`attribute_phrases`, and defaulting to the literal `"MEDIUM RISK"` when
the sub-table or the key is absent. -/
theorem C3_severity_inference (sel : Selection) (phrases attrs : Tables) :
    (replacements sel phrases attrs).lookup "severity" =
      some (severityFor sel phrases) ∧
    severityFor sel phrases = severitySpec sel phrases := by
  constructor
  · simp [replacements, List.lookup]
  · rfl

/-- Witness for C3: only `depth = gt50mm` and `edge = sharp` selected, with
a `severity` sub-table holding the composite key `gt50mm_sharp`. -/
theorem C3_severity_inference_witness :
    (replacements { depth := some "gt50mm", edge := some "sharp" }
        [("severity", [("gt50mm_sharp", "EMERGENCY")])] []).lookup "severity" =
      some (severityFor { depth := some "gt50mm", edge := some "sharp" }
        [("severity", [("gt50mm_sharp", "EMERGENCY")])]) ∧
    severityFor { depth := some "gt50mm", edge := some "sharp" }
        [("severity", [("gt50mm_sharp", "EMERGENCY")])] =
      severitySpec { depth := some "gt50mm", edge := some "sharp" }
        [("severity", [("gt50mm_sharp", "EMERGENCY")])] :=
  C3_severity_inference _ _ _

example :
    severityFor { depth := some "gt50mm", edge := some "sharp" }
      [("severity", [("gt50mm_sharp", "EMERGENCY")])] = "EMERGENCY" := by decide
example :
    severityFor { depth := some "gt50mm" }
      [("severity", [("gt50mm_sharp", "EMERGENCY")])] = "MEDIUM RISK" := by
  decide
example :
    severityFor { depth := some "gt50mm", location := some "descent,junction" }
      [("severity", [("gt50mm_descent", "HIGH RISK")])] = "HIGH RISK" := by
  decide

theorem resolveValue_eq_resolveSpec (phrases attrs : Tables)
    (name val : String) :
    resolveValue phrases attrs name (name ++ "_description") val =
      resolveSpec phrases attrs name val := by
  rcases h1 : (phrases.lookup (name ++ "_description")).bind
      (fun tbl => tbl.lookup val) with _ | p <;>
    rcases h2 : (attrs.lookup name).bind (fun tbl => tbl.lookup val)
        with _ | d <;>
      simp [resolveValue, resolveSpec, h1, h2]

theorem codeJoin_eq_joinAnd (ds : List String) :
    (if ds.length > 1 then String.intercalate " and " ds
     else (ds.head?).getD "") = joinAnd ds := by
  match ds with
  | [] => rfl
  | [d] => rfl
  | d1 :: d2 :: t =>
      rw [if_pos (by simp [List.length_cons])]
      rfl

/-- C4: for each of the six categories with a truthy selection, the loop
of `_generate_report_text` records a replacement under
`<category>_description`; each value is resolved by the priority
`attribute_phrases[<category>_description]` → `attributes[<category>]` →
the raw value-key; multi-value categories (`location`, `visibility`)
resolve each parsed value independently and join the phrases with
`" and "` preserving order (a single phrase unmodified, which is what
`joinAnd` does on a singleton); other categories use the single resolved
phrase. -/
theorem C4_phrase_resolution (phrases attrs : Tables) (sel : Selection)
    (name v val : String)
    (hname : name ∈ ["depth", "edge", "width", "location", "visibility",
      "surface"])
    (hsel : sel.get name = some v) (hne : v ≠ "") :
    (name ++ "_description", categoryReplacement phrases attrs name v) ∈
        replacements sel phrases attrs ∧
    resolveValue phrases attrs name (name ++ "_description") val =
      resolveSpec phrases attrs name val ∧
    ((name = "location" ∨ name = "visibility") →
      categoryReplacement phrases attrs name v =
        joinAnd ((_parse_value v).map
          (resolveValue phrases attrs name (name ++ "_description")))) ∧
    ((name ≠ "location" ∧ name ≠ "visibility") →
      categoryReplacement phrases attrs name v =
        resolveSpec phrases attrs name v) ∧
    joinAnd [val] = val := by
  refine ⟨?_, resolveValue_eq_resolveSpec phrases attrs name val, ?_, ?_, rfl⟩
  · refine List.mem_cons_of_mem _ (List.mem_filterMap.mpr ⟨name, hname, ?_⟩)
    rw [hsel]
    simp [hne]
  · intro hmulti
    simp only [categoryReplacement, if_pos hmulti]
    exact codeJoin_eq_joinAnd _
  · rintro ⟨hn1, hn2⟩
    simp only [categoryReplacement, if_neg (by simp [hn1, hn2] :
      ¬(name = "location" ∨ name = "visibility"))]
    exact resolveValue_eq_resolveSpec phrases attrs name v

/-- Witness for C4: a two-value `location` selection with a phrase table. -/
theorem C4_phrase_resolution_witness :
    ("location" ++ "_description",
        categoryReplacement
          [("location_description",
            [("primary_cycle_line", "on the primary cycle line"),
             ("general", "in the general carriageway")])] []
          "location" "primary_cycle_line,general") ∈
        replacements { location := some "primary_cycle_line,general" }
          [("location_description",
            [("primary_cycle_line", "on the primary cycle line"),
             ("general", "in the general carriageway")])] [] ∧
    resolveValue
        [("location_description",
          [("primary_cycle_line", "on the primary cycle line"),
           ("general", "in the general carriageway")])] []
        "location" ("location" ++ "_description") "primary_cycle_line" =
      resolveSpec
        [("location_description",
          [("primary_cycle_line", "on the primary cycle line"),
           ("general", "in the general carriageway")])] []
        "location" "primary_cycle_line" ∧
    (("location" = "location" ∨ "location" = "visibility") →
      categoryReplacement
          [("location_description",
            [("primary_cycle_line", "on the primary cycle line"),
             ("general", "in the general carriageway")])] []
          "location" "primary_cycle_line,general" =
        joinAnd ((_parse_value "primary_cycle_line,general").map
          (resolveValue
            [("location_description",
              [("primary_cycle_line", "on the primary cycle line"),
               ("general", "in the general carriageway")])] []
            "location" ("location" ++ "_description")))) ∧
    (("location" ≠ "location" ∧ "location" ≠ "visibility") →
      categoryReplacement
          [("location_description",
            [("primary_cycle_line", "on the primary cycle line"),
             ("general", "in the general carriageway")])] []
          "location" "primary_cycle_line,general" =
        resolveSpec
          [("location_description",
            [("primary_cycle_line", "on the primary cycle line"),
             ("general", "in the general carriageway")])] []
          "location" "primary_cycle_line,general") ∧
    joinAnd ["primary_cycle_line"] = "primary_cycle_line" :=
  C4_phrase_resolution _ _ _ _ _ _ (by decide) rfl (by decide)

example :
    categoryReplacement
      [("location_description",
        [("primary_cycle_line", "on the primary cycle line")])]
      [("location", [("general", "in the general carriageway")])]
      "location" "primary_cycle_line,general,unknown_key" =
      "on the primary cycle line and in the general carriageway and unknown_key" := by
  decide

example :
    categoryReplacement [] [("depth", [("gt50mm", "deeper than 50mm")])]
      "depth" "gt50mm" = "deeper than 50mm" := by decide

example :
    categoryReplacement
      [("depth_description", [("gt50mm", "a phrase-table phrase")])]
      [("depth", [("gt50mm", "deeper than 50mm")])]
      "depth" "gt50mm" = "a phrase-table phrase" := by decide

theorem containsChar_eq_true_iff {c : Char} : ∀ {l : List Char},
    containsChar c l = true ↔ c ∈ l := by
  intro l
  induction l with
  | nil => simp [containsChar]
  | cons d r ih =>
      simp only [containsChar, Bool.or_eq_true, decide_eq_true_eq, ih,
        List.mem_cons]
      constructor
      · rintro (h | h)
        · exact Or.inl h.symm
        · exact Or.inr h
      · rintro (h | h)
        · exact Or.inl h.symm
        · exact Or.inr h

theorem containsChar_reverse {c : Char} (l : List Char) :
    containsChar c l.reverse = containsChar c l := by
  by_cases h : c ∈ l
  · rw [containsChar_eq_true_iff.mpr (List.mem_reverse.mpr h),
      containsChar_eq_true_iff.mpr h]
  · have h1 : containsChar c l.reverse ≠ true :=
      fun hc => h (List.mem_reverse.mp (containsChar_eq_true_iff.mp hc))
    have h2 : containsChar c l ≠ true :=
      fun hc => h (containsChar_eq_true_iff.mp hc)
    simp only [Bool.not_eq_true] at h1 h2
    rw [h1, h2]

theorem containsChar_append {c : Char} (a b : List Char) :
    containsChar c (a ++ b) = (containsChar c a || containsChar c b) := by
  induction a with
  | nil => simp [containsChar]
  | cons d r ih => simp [containsChar, ih, Bool.or_assoc]

theorem tokFrom_of_no_close {l : List Char}
    (h : containsChar '\x7d' l = false) : tokFrom l = false := by
  cases l with
  | nil => rfl
  | cons d r =>
      simp only [containsChar, Bool.or_eq_false_iff] at h
      simp [tokFrom, h.2]

theorem hasBraceTok_of_no_close : ∀ {l : List Char},
    containsChar '\x7d' l = false → hasBraceTok l = false := by
  intro l
  induction l with
  | nil => intro _; rfl
  | cons c rest ih =>
      intro h
      simp only [containsChar, Bool.or_eq_false_iff] at h
      simp [hasBraceTok, tokFrom_of_no_close h.2, ih h.2]

/-- Placeholder deletion leaves no `\{[^}]+\}` token, for any input. -/
theorem stripPlaceholdersAux_no_tok : ∀ (l : List Char)
    (st : Option (List Char)),
    (∀ buf, st = some buf → containsChar '\x7d' buf = false) →
    hasBraceTok (stripPlaceholdersAux l st) = false := by
  intro l
  induction l with
  | nil =>
      intro st hst
      match st with
      | none => rfl
      | some buf =>
          have hbuf := hst buf rfl
          have hrev : containsChar '\x7d' buf.reverse = false := by
            rw [containsChar_reverse]; exact hbuf
          simp [stripPlaceholdersAux, hasBraceTok,
            tokFrom_of_no_close hrev, hasBraceTok_of_no_close hrev]
  | cons c rest ih =>
      intro st hst
      match st with
      | none =>
          by_cases hc : c = '\x7b'
          · simp only [stripPlaceholdersAux, if_pos hc]
            exact ih _ (fun buf hb => by cases hb; rfl)
          · simp only [stripPlaceholdersAux, if_neg hc]
            simp [hasBraceTok, hc, ih none (fun _ h => by cases h)]
      | some buf =>
          have hbuf := hst buf rfl
          by_cases hc : c = '\x7d'
          · simp only [stripPlaceholdersAux, if_pos hc]
            by_cases hb : buf.isEmpty
            · rw [if_pos hb]
              simp [hasBraceTok, tokFrom,
                ih none (fun _ h => by cases h)]
            · rw [if_neg hb]
              exact ih none (fun _ h => by cases h)
          · simp only [stripPlaceholdersAux, if_neg hc]
            refine ih _ (fun buf' hb => ?_)
            cases hb
            simp [containsChar, hc, hbuf]

theorem collapseWsAux_cons_ws_true {c : Char} {rest : List Char}
    (h : isPySpace c = true) :
    collapseWsAux true (c :: rest) = collapseWsAux true rest := by
  simp [collapseWsAux, h]

theorem collapseWsAux_cons_ws_false {c : Char} {rest : List Char}
    (h : isPySpace c = true) :
    collapseWsAux false (c :: rest) = ' ' :: collapseWsAux true rest := by
  simp [collapseWsAux, h]

theorem collapseWsAux_cons_not_ws {c : Char} {rest : List Char} {b : Bool}
    (h : isPySpace c = false) :
    collapseWsAux b (c :: rest) = c :: collapseWsAux false rest := by
  simp [collapseWsAux, h]

theorem not_pySpace_close {c : Char} (h : isPySpace c = true) :
    c ≠ '\x7d' := by
  intro hx
  subst hx
  simp [isPySpace] at h

/-- Whitespace collapsing preserves the set of `'}'` occurrences. -/
theorem collapseWsAux_contains_close : ∀ (l : List Char) (b : Bool),
    containsChar '\x7d' (collapseWsAux b l) = containsChar '\x7d' l := by
  intro l
  induction l with
  | nil => intro b; rfl
  | cons c rest ih =>
      intro b
      by_cases hws : isPySpace c
      · have hc := not_pySpace_close hws
        cases b with
        | true =>
            rw [collapseWsAux_cons_ws_true hws, ih true]
            simp [containsChar, hc]
        | false =>
            rw [collapseWsAux_cons_ws_false hws]
            simp [containsChar, ih true, hc]
      · simp only [Bool.not_eq_true] at hws
        rw [collapseWsAux_cons_not_ws hws]
        simp [containsChar, ih false]

theorem collapseWsAux_tokFrom {l : List Char}
    (h : tokFrom l = false) : tokFrom (collapseWsAux false l) = false := by
  cases l with
  | nil => rfl
  | cons d t =>
      simp only [tokFrom, Bool.and_eq_false_iff] at h
      by_cases hws : isPySpace d
      · have hd := not_pySpace_close hws
        have ht : containsChar '\x7d' t = false := by
          rcases h with h | h
          · simp at h
            exact absurd h hd
          · exact h
        rw [collapseWsAux_cons_ws_false hws]
        simp [tokFrom, collapseWsAux_contains_close, ht]
      · simp only [Bool.not_eq_true] at hws
        rw [collapseWsAux_cons_not_ws hws]
        simp only [tokFrom, Bool.and_eq_false_iff]
        rcases h with h | h
        · exact Or.inl h
        · exact Or.inr (by rw [collapseWsAux_contains_close]; exact h)

/-- Whitespace collapsing creates no `\{[^}]+\}` token. -/
theorem collapseWsAux_no_tok : ∀ {l : List Char},
    hasBraceTok l = false → ∀ b, hasBraceTok (collapseWsAux b l) = false := by
  intro l
  induction l with
  | nil => intro _ b; rfl
  | cons c rest ih =>
      intro h b
      simp only [hasBraceTok, Bool.or_eq_false_iff, Bool.and_eq_false_iff]
        at h
      obtain ⟨htop, hrest⟩ := h
      by_cases hws : isPySpace c
      · cases b with
        | true =>
            rw [collapseWsAux_cons_ws_true hws]
            exact ih hrest true
        | false =>
            rw [collapseWsAux_cons_ws_false hws]
            simp [hasBraceTok, ih hrest true]
      · simp only [Bool.not_eq_true] at hws
        rw [collapseWsAux_cons_not_ws hws]
        simp only [hasBraceTok, Bool.or_eq_false_iff, Bool.and_eq_false_iff]
        refine ⟨?_, ih hrest false⟩
        rcases htop with hc | htf
        · exact Or.inl hc
        · exact Or.inr (collapseWsAux_tokFrom htf)

/-- The first character emitted in "just saw whitespace" mode is not
whitespace. -/
theorem collapseWsAux_head_not_ws : ∀ (l : List Char) (c : Char),
    (collapseWsAux true l).head? = some c → isPySpace c = false := by
  intro l
  induction l with
  | nil => intro c h; simp [collapseWsAux] at h
  | cons d t ih =>
      intro c h
      by_cases hws : isPySpace d
      · rw [collapseWsAux_cons_ws_true hws] at h
        exact ih c h
      · simp only [Bool.not_eq_true] at hws
        rw [collapseWsAux_cons_not_ws hws] at h
        simp only [List.head?_cons, Option.some_inj] at h
        subst h
        exact hws

/-- Whitespace collapsing leaves no two adjacent whitespace characters. -/
theorem collapseWsAux_noDoubleWs : ∀ (l : List Char) (b : Bool),
    noDoubleWs (collapseWsAux b l) = true := by
  intro l
  induction l with
  | nil => intro b; rfl
  | cons c rest ih =>
      intro b
      by_cases hws : isPySpace c
      · cases b with
        | true =>
            rw [collapseWsAux_cons_ws_true hws]
            exact ih true
        | false =>
            rw [collapseWsAux_cons_ws_false hws]
            cases hout : collapseWsAux true rest with
            | nil => rfl
            | cons d t =>
                have hd : isPySpace d = false :=
                  collapseWsAux_head_not_ws rest d (by rw [hout]; rfl)
                have h2 := ih true
                rw [hout] at h2
                simp [noDoubleWs, hd, h2]
      · simp only [Bool.not_eq_true] at hws
        rw [collapseWsAux_cons_not_ws hws]
        cases hout : collapseWsAux false rest with
        | nil => rfl
        | cons d t =>
            have h2 := ih false
            rw [hout] at h2
            simp [noDoubleWs, hws, h2]

/-- Every whitespace character surviving the collapse is a plain space. -/
theorem collapseWsAux_all_blank : ∀ (l : List Char) (b : Bool),
    (collapseWsAux b l).all (fun c => !isPySpace c || c = ' ') = true := by
  intro l
  induction l with
  | nil => intro b; rfl
  | cons c rest ih =>
      intro b
      by_cases hws : isPySpace c
      · cases b with
        | true =>
            rw [collapseWsAux_cons_ws_true hws]
            exact ih true
        | false =>
            rw [collapseWsAux_cons_ws_false hws]
            simp [List.all_cons, ih true]
      · simp only [Bool.not_eq_true] at hws
        rw [collapseWsAux_cons_not_ws hws]
        simp [List.all_cons, hws, ih false]

theorem tokFrom_append_false {a b : List Char}
    (h : tokFrom (a ++ b) = false) : tokFrom a = false := by
  cases a with
  | nil => rfl
  | cons d t =>
      simp only [List.cons_append, tokFrom, Bool.and_eq_false_iff,
        containsChar_append, Bool.or_eq_false_iff] at h ⊢
      rcases h with h | ⟨h1, _⟩
      · exact Or.inl h
      · exact Or.inr h1

theorem hasBraceTok_append_false : ∀ (a b : List Char),
    hasBraceTok (a ++ b) = false →
    hasBraceTok a = false ∧ hasBraceTok b = false := by
  intro a
  induction a with
  | nil => intro b h; exact ⟨rfl, h⟩
  | cons c a' ih =>
      intro b h
      simp only [List.cons_append, hasBraceTok, Bool.or_eq_false_iff,
        Bool.and_eq_false_iff] at h
      obtain ⟨htop, hrest⟩ := h
      obtain ⟨ha', hb⟩ := ih b hrest
      refine ⟨?_, hb⟩
      simp only [hasBraceTok, Bool.or_eq_false_iff, Bool.and_eq_false_iff]
      refine ⟨?_, ha'⟩
      rcases htop with hc | htf
      · exact Or.inl hc
      · exact Or.inr (tokFrom_append_false htf)

theorem noDoubleWs_tail {c : Char} {l : List Char}
    (h : noDoubleWs (c :: l) = true) : noDoubleWs l = true := by
  cases l with
  | nil => rfl
  | cons d t =>
      simp only [noDoubleWs, Bool.and_eq_true] at h
      exact h.2

theorem noDoubleWs_append_right : ∀ (a b : List Char),
    noDoubleWs (a ++ b) = true → noDoubleWs b = true := by
  intro a
  induction a with
  | nil => intro b h; exact h
  | cons c a' ih => intro b h; exact ih b (noDoubleWs_tail h)

theorem noDoubleWs_append_left : ∀ (a b : List Char),
    noDoubleWs (a ++ b) = true → noDoubleWs a = true := by
  intro a
  induction a with
  | nil => intro b _; rfl
  | cons c a' ih =>
      intro b h
      cases a' with
      | nil => rfl
      | cons d t =>
          have h' : noDoubleWs (c :: d :: (t ++ b)) = true := h
          simp only [noDoubleWs, Bool.and_eq_true] at h' ⊢
          exact ⟨h'.1, ih b h'.2⟩

theorem dropWhile_head_not (p : Char → Bool) : ∀ (l : List Char) (c : Char),
    (l.dropWhile p).head? = some c → p c = false := by
  intro l
  induction l with
  | nil => intro c h; simp [List.dropWhile] at h
  | cons d t ih =>
      intro c h
      by_cases hp : p d = true
      · rw [List.dropWhile_cons, if_pos hp] at h
        exact ih c h
      · rw [List.dropWhile_cons, if_neg hp] at h
        simp only [List.head?_cons, Option.some_inj] at h
        subst h
        simpa using hp

/-- Stripping leading and trailing whitespace leaves no whitespace at
either edge. -/
theorem trim_noEdgeWs (x : List Char) :
    noEdgeWs (((x.dropWhile isPySpace).reverse.dropWhile isPySpace).reverse)
      = true := by
  obtain ⟨pre2, hpre2⟩ :=
    List.dropWhile_suffix (l := (x.dropWhile isPySpace).reverse) isPySpace
  have hhead_ok : ∀ c,
      ((x.dropWhile isPySpace).reverse.dropWhile isPySpace).getLast? =
        some c → isPySpace c = false := by
    intro c hc
    have h1 : (x.dropWhile isPySpace).head? = some c := by
      rw [← List.getLast?_reverse (x.dropWhile isPySpace), ← hpre2,
        List.getLast?_append, hc]
      rfl
    exact dropWhile_head_not isPySpace x c h1
  rcases hw : (x.dropWhile isPySpace).reverse.dropWhile isPySpace
    with _ | ⟨d, t⟩
  · rfl
  · have hd : isPySpace d = false := by
      refine dropWhile_head_not isPySpace (x.dropWhile isPySpace).reverse d ?_
      rw [hw]; rfl
    unfold noEdgeWs
    rw [List.head?_reverse, List.getLast?_reverse]
    rcases hlast : (d :: t).getLast? with _ | c
    · simp at hlast
    · have hcws := hhead_ok c (by rw [hw, hlast])
      simp [hlast, hd, hcws]

/-- C5: for every attribute selection and configuration, the generated
report text contains no `\{[^}]+\}` token (every placeholder was either
substituted or deleted), every whitespace character in it is a single
plain space with no two adjacent, and it neither starts nor ends with
whitespace. -/
theorem C5_template_expansion (sel : Selection) (config : Config) :
    hasBraceTok (_generate_report_text sel config).data = false ∧
    noDoubleWs (_generate_report_text sel config).data = true ∧
    (_generate_report_text sel config).data.all
      (fun c => !isPySpace c || c = ' ') = true ∧
    noEdgeWs (_generate_report_text sel config).data = true := by
  have hdata :
      (_generate_report_text sel config).data =
        ((((collapseWs (stripPlaceholders
            ((replacements sel config.attribute_phrases
                config.attributes).foldl
              (fun result pv =>
                (⟨replaceAll ("\x7b" ++ pv.1 ++ "\x7d").data pv.2.data
                  result.data⟩ : String))
              config.report_template).data)).dropWhile
            isPySpace).reverse.dropWhile isPySpace).reverse) := rfl
  set y : List Char :=
    collapseWs (stripPlaceholders
      ((replacements sel config.attribute_phrases config.attributes).foldl
        (fun result pv =>
          (⟨replaceAll ("\x7b" ++ pv.1 ++ "\x7d").data pv.2.data
            result.data⟩ : String))
        config.report_template).data) with hy
  have htok_y : hasBraceTok y = false := by
    rw [hy]
    exact collapseWsAux_no_tok
      (stripPlaceholdersAux_no_tok _ none (fun _ h => by cases h)) false
  have hdw_y : noDoubleWs y = true := by
    rw [hy]
    exact collapseWsAux_noDoubleWs _ false
  have hblank_y : y.all (fun c => !isPySpace c || c = ' ') = true := by
    rw [hy]
    exact collapseWsAux_all_blank _ false
  obtain ⟨pre, hpre⟩ := List.dropWhile_suffix (l := y) isPySpace
  obtain ⟨pre2, hpre2⟩ :=
    List.dropWhile_suffix (l := (y.dropWhile isPySpace).reverse) isPySpace
  have hu :
      y.dropWhile isPySpace =
        ((y.dropWhile isPySpace).reverse.dropWhile isPySpace).reverse ++
          pre2.reverse := by
    have := congrArg List.reverse hpre2
    rw [List.reverse_append, List.reverse_reverse] at this
    exact this.symm
  constructor
  · rw [hdata]
    have h1 : hasBraceTok (y.dropWhile isPySpace) = false := by
      rw [← hpre] at htok_y
      exact (hasBraceTok_append_false _ _ htok_y).2
    rw [hu] at h1
    exact (hasBraceTok_append_false _ _ h1).1
  constructor
  · rw [hdata]
    have h1 : noDoubleWs (y.dropWhile isPySpace) = true := by
      rw [← hpre] at hdw_y
      exact noDoubleWs_append_right _ _ hdw_y
    rw [hu] at h1
    exact noDoubleWs_append_left _ _ h1
  constructor
  · rw [hdata]
    have h1 : (y.dropWhile isPySpace).all
        (fun c => !isPySpace c || c = ' ') = true := by
      rw [← hpre, List.all_append, Bool.and_eq_true] at hblank_y
      exact hblank_y.2
    rw [hu, List.all_append, Bool.and_eq_true] at h1
    exact h1.1
  · rw [hdata]
    exact trim_noEdgeWs y

/-- Counterexample to C1 as stated: a config whose `attributes` section is
structurally invalid (a plain string) while the credential store has no
email.  The claim's order (structural shape before email presence) would
report the structural error; the code reports the email error. -/
theorem C1_counterexample :
    load_config (some [("attributes", Yaml.strV "not a dict")])
        (fun _ => none) = .error ConfigError.emailNotFound ∧
    ConfigError.emailNotFound ≠ ConfigError.attributesNotDict := by
  constructor
  · rfl
  · decide

/-- C1 (amended): validation failures are detected in the order file
existence → email presence in the credential store → `attributes` presence
→ `attributes` structural shape → `report_template` presence →
`report_template` type, short-circuiting on the first failure — the error
`load_config` raises is exactly the first failure of that cascade
(`expectedError`), for every config file and credential store. -/
theorem C1_validation_order (found : Option (List (String × Yaml)))
    (keyring : String → Option String) :
    (match load_config found keyring with
     | .error e => some e
     | .ok _ => none) = expectedError found keyring := by
  match found with
  | none => rfl
  | some data =>
      simp only [load_config, expectedError]
      cases hk : keyring (pyStr ((data.lookup "keyring_account").getD
          (.strV "email"))) with
      | none => simp [hk]
      | some v =>
          by_cases hv : v = ""
          · simp [hk, hv]
          · by_cases hs : pyStrip v = ""
            · simp [hk, hv, hs]
            · cases ha : data.lookup "attributes" with
              | none => simp [hk, hv, hs, ha]
              | some raw =>
                  cases raw with
                  | nullV => simp [hk, hv, hs, ha]
                  | boolV b => simp [hk, hv, hs, ha, _validate_attributes]
                  | intV n => simp [hk, hv, hs, ha, _validate_attributes]
                  | strV s => simp [hk, hv, hs, ha, _validate_attributes]
                  | listV xs => simp [hk, hv, hs, ha, _validate_attributes]
                  | mapV kvs =>
                      cases hval : validateAttrList kvs with
                      | error er =>
                          simp [hk, hv, hs, ha, _validate_attributes, hval]
                      | ok u =>
                          cases u
                          cases ht : data.lookup "report_template" with
                          | none =>
                              simp [hk, hv, hs, ha, _validate_attributes,
                                hval, ht]
                          | some rt =>
                              cases rt <;>
                                simp [hk, hv, hs, ha, _validate_attributes,
                                  hval, ht]

/-- C6: `build_report_record` derives exactly the two URLs
`{report_url without trailing slashes}/around?lat={lat}&lon={lon}&zoom=4`
and `https://www.google.com/maps?q={lat},{lon}` from the coordinates
rounded to six decimal places; the stripped base never ends in a slash;
and on `report_url = "https://x.org/"`, `lat = lon = 0.0` the first URL is
exactly `https://x.org/around?lat=0.0&lon=0.0&zoom=4`. -/
theorem C6_report_urls (report_url : String) (lat lon : ℚ) :
    (build_report_record_urls report_url lat lon).1 =
      rstripSlash report_url ++ "/around?lat=" ++
        fmtMicro (round6micro lat) ++ "&lon=" ++
        fmtMicro (round6micro lon) ++ "&zoom=4" ∧
    (build_report_record_urls report_url lat lon).2 =
      "https://www.google.com/maps?q=" ++ fmtMicro (round6micro lat) ++
        "," ++ fmtMicro (round6micro lon) ∧
    (rstripSlash report_url).data.getLast? ≠ some '/' ∧
    (build_report_record_urls "https://x.org/" 0 0).1 =
      "https://x.org/around?lat=0.0&lon=0.0&zoom=4" := by
  refine ⟨rfl, rfl, ?_, by decide⟩
  intro h
  rw [show (rstripSlash report_url).data =
      (report_url.data.reverse.dropWhile (fun c => c = '/')).reverse
      from rfl, List.getLast?_reverse] at h
  have := dropWhile_head_not (fun c => c = '/') report_url.data.reverse '/' h
  simp at this

/-- Witness for C6: the concrete spec example, read off the theorem. -/
theorem C6_report_urls_witness :
    (build_report_record_urls "https://x.org/" 0 0).1 =
      "https://x.org/around?lat=0.0&lon=0.0&zoom=4" :=
  (C6_report_urls "https://x.org/" 0 0).2.2.2

/-- Counterexample to C9 as stated: a malformed (non-mapping)
`attribute_phrases` entry does not degrade to empty — it is kept as its
stringification. -/
theorem C9_counterexample :
    (load_config (some
        [("attributes", Yaml.mapV [("depth", Yaml.mapV
            [("lt40mm", Yaml.strV "Less than 40mm")])]),
         ("report_template", Yaml.strV "t"),
         ("attribute_phrases", Yaml.mapV [("severity", Yaml.strV "X")])])
        (fun _ => some "a@b.c")).map (fun cfg => cfg.attribute_phrases) =
      .ok [("severity", PhraseVal.str "X")] ∧
    PhraseVal.str "X" ≠ PhraseVal.table [] := by
  constructor
  · rfl
  · decide

/-- C9 (amended): `load_config` never fails because of the
`attribute_phrases` or `advice_for_reporters` sections: with any YAML
values `p`, `a` there (malformed included) an otherwise-valid config still
loads; a non-mapping section degrades to empty, while inside a mapping
section a non-mapping phrase entry and a non-string `pro_tip` are kept as
their stringifications rather than dropped. -/
theorem C9_lenient_secondary_data (p a : Yaml) :
    ∃ cfg,
      load_config (some
          [("attributes", Yaml.mapV [("depth", Yaml.mapV
              [("lt40mm", Yaml.strV "Less than 40mm")])]),
           ("report_template", Yaml.strV "t"),
           ("attribute_phrases", p),
           ("advice_for_reporters", a)])
          (fun _ => some "a@b.c") = .ok cfg ∧
      cfg.attribute_phrases = loadPhrases p ∧
      cfg.advice_for_reporters = loadAdvice a ∧
      ((∀ kvs, p ≠ Yaml.mapV kvs) → loadPhrases p = []) ∧
      ((∀ kvs, a ≠ Yaml.mapV kvs) → loadAdvice a = ⟨[], ""⟩) := by
  refine ⟨_, rfl, rfl, rfl, ?_, ?_⟩
  · intro h
    cases p with
    | mapV kvs => exact absurd rfl (h kvs)
    | nullV => rfl
    | boolV b => rfl
    | intV n => rfl
    | strV s => rfl
    | listV xs => rfl
  · intro h
    cases a with
    | mapV kvs => exact absurd rfl (h kvs)
    | nullV => rfl
    | boolV b => rfl
    | intV n => rfl
    | strV s => rfl
    | listV xs => rfl

/-- Witness for C9: a string-valued `attribute_phrases` section and an
integer `advice_for_reporters` section, both degrading to empty without a
failure. -/
theorem C9_lenient_secondary_data_witness :
    ∃ cfg,
      load_config (some
          [("attributes", Yaml.mapV [("depth", Yaml.mapV
              [("lt40mm", Yaml.strV "Less than 40mm")])]),
           ("report_template", Yaml.strV "t"),
           ("attribute_phrases", Yaml.strV "oops"),
           ("advice_for_reporters", Yaml.intV 5)])
          (fun _ => some "a@b.c") = .ok cfg ∧
      cfg.attribute_phrases = loadPhrases (Yaml.strV "oops") ∧
      cfg.advice_for_reporters = loadAdvice (Yaml.intV 5) ∧
      loadPhrases (Yaml.strV "oops") = [] ∧
      loadAdvice (Yaml.intV 5) = ⟨[], ""⟩ := by
  obtain ⟨cfg, h1, h2, h3, h4, h5⟩ :=
    C9_lenient_secondary_data (Yaml.strV "oops") (Yaml.intV 5)
  exact ⟨cfg, h1, h2, h3,
    h4 (fun kvs h => by cases h), h5 (fun kvs h => by cases h)⟩

end PotholeReport
